import Mathlib

/-!
A verification development for the EIT (DVB Event Information Table)
decoder in src/parse_eit.c.

Embedding conventions:
- bytes are `Nat` values below 256, byte buffers are `List Nat`;
- the C program aborts decoding by terminating the process with status -1
  (or by an `assert` abort); both are modelled by the explicit outcome
  type `Fatal`;
- the external iconv library is modelled exactly for the UTF-8 source
  encoding (the multi-byte case the theorems exercise) and as a total
  single-byte map for the ISO 8859 family;
- the C floating point arithmetic in `parse_start_time` is modelled by
  exact fraction arithmetic: each intermediate `(int)` cast of a decimal
  expression becomes a truncated integer division whose operands are the
  expression's exact numerator and (positive) denominator.
-/

deriving instance DecidableEq for Except

namespace ParseEIT

/-- Abnormal termination of the C process: `procTerm c` models the calls of
the libc termination routine with status `c` in parse_eit.c (lines 242, 280,
329, 334, 530, 589); `assertFail` models the abort raised by the `assert`
on line 186. -/
inductive Fatal where
  | procTerm (code : Int)
  | assertFail
deriving DecidableEq

/-- C `struct s_duration` (parse_eit.c line 29): three `int` fields. -/
structure s_duration where
  hour : Int
  minute : Int
  second : Int
deriving DecidableEq

/-- C `parse_duration` (parse_eit.c lines 46..55): packed-BCD triplet
decoder.  The C function returns 0 and leaves `*s` untouched when fewer
than 3 bytes are available, hence the explicit pre-state argument `s`.
`b >> 4` on a byte is `b / 16` and `b & 0x0F` is `b % 16`. -/
def parse_duration (p : List Nat) (s : s_duration) : Nat × s_duration :=
  if p.length < 3 then (0, s)
  else
    match p with
    | b0 :: b1 :: b2 :: _ =>
      (3, { hour := ((b0 / 16) * 10 + b0 % 16 : Nat),
            minute := ((b1 / 16) * 10 + b1 % 16 : Nat),
            second := ((b2 / 16) * 10 + b2 % 16 : Nat) })
    | _ => (0, s)

/-- C `struct s_start_time` (parse_eit.c line 57): two-digit year, day and
month plus an `s_duration`-shaped time of day (same field order as the C
struct: `Y`, `D`, `M`, `t`). -/
structure s_start_time where
  Y : Int
  D : Int
  M : Int
  t : s_duration
deriving DecidableEq

/-- C `parse_start_time` (parse_eit.c lines 78..107).  `MJD` is the 16-bit
Modified Julian Date `p[0] << 8 | p[1]`; the year/month/day follow the
Annex C approximation formula.  Each C line computes a decimal expression
in `double` and casts it to `int`; the cast truncates toward zero, which
`Int.tdiv` with the positive exact denominator reproduces:
- `Ys  = (MJD - 15078.2) / 365.25` is exactly `((10*MJD - 150782) * 10) / 36525`;
- `tmp = (Ys * 365.25)` is exactly `(Ys * 36525) / 100` (likewise `tmp1`);
- `Ms  = (MJD - 14956.1 - tmp) / 30.6001` is exactly
  `(((MJD - tmp) * 10 - 149561) * 1000) / 306001`;
- `tmp2 = (Ms * 30.6001)` is exactly `(Ms * 306001) / 10000`.
The C doubles carry rounding error below 2e-8 of these exact values, far
from every truncation boundary reached at the values the theorems
evaluate.  As in C, the trailing BCD triplet is decoded by
`parse_duration` into the `t` field. -/
def parse_start_time (p : List Nat) (s0 : s_start_time) : Nat × s_start_time :=
  if p.length < 5 then (0, s0)
  else
    let MJD : Int := Int.ofNat (p.getD 0 0 * 256 + p.getD 1 0)
    let Ys : Int := Int.tdiv ((10 * MJD - 150782) * 10) 36525
    let tmp : Int := Int.tdiv (Ys * 36525) 100
    let Ms : Int := Int.tdiv (((MJD - tmp) * 10 - 149561) * 1000) 306001
    let tmp1 : Int := Int.tdiv (Ys * 36525) 100
    let tmp2 : Int := Int.tdiv (Ms * 306001) 10000
    let K : Int := if Ms = 14 ∨ Ms = 15 then 1 else 0
    let t := (parse_duration (p.drop 2) s0.t).2
    (5, { Y := Ys + K, D := MJD - 14956 - tmp1 - tmp2, M := Ms - 1 - K * 12, t := t })

/-- The `switch (first_byte_value)` of `get_code_table` (parse_eit.c lines
136..179): single-byte selector codes.  The `default` branch leaves the
initial assignment "ISO-8859-1" in place. -/
def table_1byte (b : Nat) : String :=
  match b with
  | 0x01 => "ISO-8859-5"
  | 0x02 => "ISO-8859-6"
  | 0x03 => "ISO-8859-7"
  | 0x04 => "ISO-8859-8"
  | 0x05 => "ISO-8859-9"
  | 0x06 => "ISO-8859-10"
  | 0x07 => "ISO-8859-11"
  | 0x09 => "ISO-8859-13"
  | 0x0A => "ISO-8859-14"
  | 0x0B => "ISO-8859-15"
  | 0x11 => "ISO-10646"
  | 0x13 => "GB2312"
  | 0x15 => "ISO-10646/UTF8"
  | _ => "ISO-8859-1"

/-- The `switch (third_byte_value)` of `get_code_table` (parse_eit.c lines
191..237): selector codes of the 3-byte (`0x10`) form.  The `default`
branch leaves the previously selected table `prev` in place (for a first
byte of `0x10` the first switch has left "ISO-8859-1"). -/
def table_3byte (b : Nat) (prev : String) : String :=
  match b with
  | 0x01 => "ISO-8859-1"
  | 0x02 => "ISO-8859-2"
  | 0x03 => "ISO-8859-3"
  | 0x04 => "ISO-8859-4"
  | 0x05 => "ISO-8859-5"
  | 0x06 => "ISO-8859-6"
  | 0x07 => "ISO-8859-7"
  | 0x08 => "ISO-8859-8"
  | 0x09 => "ISO-8859-9"
  | 0x0A => "ISO-8859-10"
  | 0x0B => "ISO-8859-11"
  | 0x0D => "ISO-8859-13"
  | 0x0E => "ISO-8859-14"
  | 0x0F => "ISO-8859-15"
  | _ => prev

/-- C `get_code_table` (parse_eit.c lines 118..250): character-set
selection from the leading control bytes of a text field.  Returns the
number of consumed bytes and the iconv table name, or a `Fatal` outcome:
the process terminates with status -1 when the first byte is `0x10` but
fewer than 3 bytes are available (line 242), and the `assert` on line 186
aborts when the mandatory-zero second byte of the `0x10` form is
nonzero. -/
def get_code_table (p : List Nat) : Except Fatal (Nat × String) :=
  if 1 ≤ p.length then
    let first_byte_value := p.getD 0 0
    if first_byte_value < 0x20 then
      let ct1 := table_1byte first_byte_value
      if first_byte_value = 0x10 then
        if 3 ≤ p.length then
          if p.getD 1 0 = 0x00 then
            Except.ok (3, table_3byte (p.getD 2 0) ct1)
          else
            Except.error Fatal.assertFail
        else
          Except.error (Fatal.procTerm (-1))
      else
        Except.ok (1, ct1)
    else
      Except.ok (0, "ISO-8859-1")
  else
    Except.ok (0, "ISO-8859-1")

/-- One lowercase hexadecimal digit, as produced by the C `%x` format. -/
def hexDigit (n : Nat) : Nat := if n < 10 then 48 + n else 97 + (n - 10)

/-- The per-character action of `print_JSON_escaped` (parse_eit.c lines
256..259): a double quote (0x22), a backslash (0x5C) or a control
character 0x00..0x1F is emitted as the six bytes `\u00XX` (the `%04x`
format, lowercase hex); every other byte is emitted unchanged.  Bytes
0x80..0xFF are negative as C `signed char`, so the C range test
`0x00 <= *p && *p <= 0x1f` rejects them and they pass through
unchanged, matching this model. -/
def escapeChar (c : Nat) : List Nat :=
  if c = 0x22 ∨ c = 0x5C ∨ c ≤ 0x1F then
    [0x5C, 0x75, 0x30, 0x30, hexDigit (c / 16 % 16), hexDigit (c % 16)]
  else
    [c]

/-- C `print_JSON_escaped` (parse_eit.c lines 252..262).  The C loop
`while (*p)` stops at the first NUL byte; the escape test is never reached
for 0x00. -/
def print_JSON_escaped : List Nat → List Nat
  | [] => []
  | c :: rest =>
    if c = 0 then []
    else escapeChar c ++ print_JSON_escaped rest

/-- Where an iconv conversion step stops: `ok` converted all input,
`einval` hit an incomplete multi-byte sequence at the end of the input
(errno EINVAL), `eilseq` hit an invalid byte sequence (errno EILSEQ). -/
inductive IconvStop where
  | ok
  | einval
  | eilseq
deriving DecidableEq

/-- Result of one modelled iconv call: output bytes written, input bytes
left unconsumed, and the stop condition. -/
structure IconvResult where
  out : List Nat
  rest : List Nat
  stop : IconvStop
deriving DecidableEq

/-- Classification of the UTF-8 sequence at the head of the input, as
glibc iconv validates it: `complete n` is a well-formed `n`-byte
sequence, `incomplete` a proper prefix of a well-formed sequence cut off
by the end of the input, `invalid` anything else (stray continuation
byte, overlong form, lead byte above 0xF4, bad continuation range). -/
inductive HeadClass where
  | complete (n : Nat)
  | incomplete
  | invalid
deriving DecidableEq

/-- UTF-8 head-sequence validation (the byte-range table of RFC 3629,
which is what glibc iconv enforces). -/
def utf8Head : List Nat → HeadClass
  | [] => HeadClass.incomplete
  | b :: rest =>
    if b < 0x80 then HeadClass.complete 1
    else if b < 0xC2 then HeadClass.invalid
    else if b < 0xE0 then
      match rest with
      | [] => HeadClass.incomplete
      | c1 :: _ =>
        if 0x80 ≤ c1 ∧ c1 ≤ 0xBF then HeadClass.complete 2 else HeadClass.invalid
    else if b < 0xF0 then
      let lo1 := if b = 0xE0 then 0xA0 else 0x80
      let hi1 := if b = 0xED then 0x9F else 0xBF
      match rest with
      | [] => HeadClass.incomplete
      | c1 :: rest2 =>
        if lo1 ≤ c1 ∧ c1 ≤ hi1 then
          match rest2 with
          | [] => HeadClass.incomplete
          | c2 :: _ =>
            if 0x80 ≤ c2 ∧ c2 ≤ 0xBF then HeadClass.complete 3 else HeadClass.invalid
        else HeadClass.invalid
    else if b < 0xF5 then
      let lo1 := if b = 0xF0 then 0x90 else 0x80
      let hi1 := if b = 0xF4 then 0x8F else 0xBF
      match rest with
      | [] => HeadClass.incomplete
      | c1 :: rest2 =>
        if lo1 ≤ c1 ∧ c1 ≤ hi1 then
          match rest2 with
          | [] => HeadClass.incomplete
          | c2 :: rest3 =>
            if 0x80 ≤ c2 ∧ c2 ≤ 0xBF then
              match rest3 with
              | [] => HeadClass.incomplete
              | c3 :: _ =>
                if 0x80 ≤ c3 ∧ c3 ≤ 0xBF then HeadClass.complete 4 else HeadClass.invalid
            else HeadClass.invalid
        else HeadClass.invalid
    else HeadClass.invalid

/-- Fuel-indexed worker for the UTF-8 to UTF-8 iconv conversion: copies
whole valid sequences, stops with `einval` on an incomplete tail and with
`eilseq` on an invalid sequence, leaving the unconsumed input in `rest`
exactly as iconv leaves `*inbuf`/`*inbytesleft`.  Each completed sequence
consumes at least one byte, so fuel equal to the input length suffices. -/
def iconvUTF8Go : Nat → List Nat → List Nat → IconvResult
  | _, acc, [] => ⟨acc, [], IconvStop.ok⟩
  | 0, acc, l => ⟨acc, l, IconvStop.ok⟩
  | fuel + 1, acc, b :: rest =>
    match utf8Head (b :: rest) with
    | HeadClass.complete n =>
      iconvUTF8Go fuel (acc ++ (b :: rest).take n) ((b :: rest).drop n)
    | HeadClass.incomplete => ⟨acc, b :: rest, IconvStop.einval⟩
    | HeadClass.invalid => ⟨acc, b :: rest, IconvStop.eilseq⟩

/-- iconv with source encoding "ISO-10646/UTF8" (selector byte 0x15):
a validating pass-through. -/
def iconvUTF8 (l : List Nat) : IconvResult := iconvUTF8Go l.length [] l

/-- One ISO-8859-1 byte as UTF-8: bytes below 0x80 are themselves, the
rest become a two-byte sequence for the same code point. -/
def latin1ToUTF8 (b : Nat) : List Nat :=
  if b < 0x80 then [b] else [0xC0 + b / 64, 0x80 + b % 64]

/-- The modelled iconv conversion to UTF-8 (the C `iconv_open` target
string "UTF−8" contains U+2212, which glibc's charset-name normalization
strips to the recognized "UTF8").  The conversion is exact for source
table "ISO-10646/UTF8".  Every other table the selector can produce is
single-byte except "ISO-10646" and "GB2312" (never selected in any
theorem below); single-byte tables convert every input byte on its own
and can never stop with `einval`, which is all the development relies on;
their glyph mapping is modelled uniformly by `latin1ToUTF8` (exact for
the default table "ISO-8859-1", the only single-byte table a theorem
evaluates). -/
def iconvConv (table : String) (input : List Nat) : IconvResult :=
  if table = "ISO-10646/UTF8" then iconvUTF8 input
  else ⟨input.flatMap latin1ToUTF8, [], IconvStop.ok⟩

/-- C `dump_text` (parse_eit.c lines 264..371).  `st` is the value of the
function-static carryover pointer `bytes_left` on entry (`none` models
the null pointer), `p` the text field bytes, `append` the third C
argument.  The model returns the bytes printed (after
`print_JSON_escaped`) together with the new value of `bytes_left`, or the
`Fatal` termination outcome.

Control flow mirrored from C:
- `get_code_table` may already terminate the process;
- `p += inc; len -= inc`;
- when `append` is set and a carryover exists, the carryover is copied
  into the buffer in front of `p` (`p -= num_bytes_left; strncpy(...)`),
  but `len` is NOT increased, so iconv still reads only `len` bytes: the
  effective input is `(carry ++ rest).take len` and the last
  `carry.length` bytes of the field are never converted;
- the old carryover is freed and reset in every call;
- `iconv` stopping with EINVAL stashes the unconsumed tail as the new
  carryover (`strndup(pin, len)`); EILSEQ and E2BIG terminate the
  process with status -1 (E2BIG means the 2048-byte output buffer was
  exhausted; the model checks the bound on the completed output, which
  coincides with the C behavior whenever the output fits, as it does in
  every theorem below);
- the converted output is printed through `print_JSON_escaped`. -/
def dump_text (st : Option (List Nat)) (p : List Nat) (append : Bool) :
    Except Fatal (List Nat × Option (List Nat)) :=
  match get_code_table p with
  | Except.error e => Except.error e
  | Except.ok (inc, code_table) =>
    let len := p.length - inc
    let rest := p.drop inc
    let input :=
      match st, append with
      | some carry, true => (carry ++ rest).take len
      | _, _ => rest
    let r := iconvConv code_table input
    if 2048 ≤ r.out.length then Except.error (Fatal.procTerm (-1))
    else
      match r.stop with
      | IconvStop.ok => Except.ok (print_JSON_escaped r.out, none)
      | IconvStop.einval => Except.ok (print_JSON_escaped r.out, some r.rest)
      | IconvStop.eilseq => Except.error (Fatal.procTerm (-1))


/-- Structured rendering of what the descriptor branches of `main` print:
the short-event block (with its running counter value and decoded texts),
the extended-event opening block (emitted only when
`descriptor_number == 0`, carrying the printed language code), the
extended-event text fragment, and the extended-event closing brace
(emitted only when `descriptor_number == last_descriptor_number`).  The
component branch prints nothing outside `#ifdef DEBUG`. -/
inductive OutEvent where
  | shortEvent (idx : Nat) (lang : List Nat) (name : List Nat) (text : List Nat)
  | extendedOpen (lang : List Nat)
  | extendedText (text : List Nat)
  | extendedClose
deriving DecidableEq

/-- State of `main`'s descriptor loop (parse_eit.c lines 456..595): the
cursor `pos` (the offset of `p` from `buf`), the process-wide
`shortevent_count`, the `dump_text` static carryover, and the output
produced so far. -/
structure WalkerState where
  pos : Nat
  count : Nat
  carry : Option (List Nat)
  out : List OutEvent
deriving DecidableEq

/-- Outcome of one iteration of the descriptor loop: continue with a new
state, or terminate the process (the state records what had been consumed
and emitted up to that point). -/
inductive StepResult where
  | next (s : WalkerState)
  | fatal (e : Fatal) (s : WalkerState)
deriving DecidableEq

/-- One iteration of the descriptor loop of `main` (parse_eit.c lines
456..595), entered with `s.pos < num`.  Reads `descriptor_tag` and
`descriptor_length`, advances past the 2 header bytes and dispatches:
- `SHORT_EVENT_DESCRIPTOR` (0x4D, lines 468..497): increments
  `shortevent_count`, prints the 3-byte language code, then a 1-byte name
  length + name text and a 1-byte text length + text, each through
  `dump_text` with `append = 0`; advances field by field
  (`descriptor_length` is never used by this branch);
- `EXTENDED_EVENT_DESCRIPTOR` (0x4E, lines 499..544): reads the
  `descriptor_number`/`last_descriptor_number` nibbles, prints the block
  opening and the language code only when `descriptor_number == 0`, but
  always advances `p += 3` past the language bytes; a nonzero
  `length_of_items` terminates the process; then a 1-byte text length +
  text through `dump_text` with `append = descriptor_number > 0`;
- `COMPONENT_DESCRIPTOR` (0x50, lines 546..574): skips 6 fixed bytes plus
  `size_t len = descriptor_length - 6` payload bytes (the subtraction
  wraps modulo 2^64 when `descriptor_length < 6`, throwing the cursor
  past the end of the record);
- any other tag (lines 575..591): if bytes remain after the 2 header
  bytes, the process terminates with status -1; otherwise the loop simply
  ends.
Bytes beyond position `num` are indeterminate stack memory in C; the
model reads them as 0 (`List.getD`), and no theorem depends on them. -/
def walkerStep (buf : List Nat) (num : Nat) (s : WalkerState) : StepResult :=
  let descriptor_tag := buf.getD s.pos 0
  let descriptor_length := buf.getD (s.pos + 1) 0
  let pos2 := s.pos + 2
  if descriptor_tag = 0x4D then
    let count := s.count + 1
    let lang := [buf.getD pos2 0, buf.getD (pos2 + 1) 0, buf.getD (pos2 + 2) 0]
    let pos3 := pos2 + 3
    let event_name_length := buf.getD pos3 0
    let pos4 := pos3 + 1
    match dump_text s.carry ((buf.drop pos4).take event_name_length) false with
    | Except.error e => StepResult.fatal e ⟨pos4, count, s.carry, s.out⟩
    | Except.ok (nameOut, carry1) =>
      let pos5 := pos4 + event_name_length
      let text_length := buf.getD pos5 0
      let pos6 := pos5 + 1
      match dump_text carry1 ((buf.drop pos6).take text_length) false with
      | Except.error e => StepResult.fatal e ⟨pos6, count, carry1, s.out⟩
      | Except.ok (textOut, carry2) =>
        StepResult.next ⟨pos6 + text_length, count, carry2,
          s.out ++ [OutEvent.shortEvent count lang nameOut textOut]⟩
  else if descriptor_tag = 0x4E then
    let descriptor_number := buf.getD pos2 0 / 16
    let last_descriptor_number := buf.getD pos2 0 % 16
    let pos3 := pos2 + 1
    let openEv := if descriptor_number = 0 then
        [OutEvent.extendedOpen [buf.getD pos3 0, buf.getD (pos3 + 1) 0, buf.getD (pos3 + 2) 0]]
      else []
    let pos4 := pos3 + 3
    let length_of_items := buf.getD pos4 0
    let pos5 := pos4 + 1
    if 0 < length_of_items then
      StepResult.fatal (Fatal.procTerm (-1)) ⟨pos5, s.count, s.carry, s.out ++ openEv⟩
    else
      let text_length := buf.getD pos5 0
      let pos6 := pos5 + 1
      match dump_text s.carry ((buf.drop pos6).take text_length)
          (decide (0 < descriptor_number)) with
      | Except.error e => StepResult.fatal e ⟨pos6, s.count, s.carry, s.out ++ openEv⟩
      | Except.ok (textOut, carry1) =>
        let closeEv := if descriptor_number = last_descriptor_number then
            [OutEvent.extendedClose]
          else []
        StepResult.next ⟨pos6 + text_length, s.count, carry1,
          s.out ++ openEv ++ [OutEvent.extendedText textOut] ++ closeEv⟩
  else if descriptor_tag = 0x50 then
    let len := (descriptor_length + (18446744073709551616 - 6)) % 18446744073709551616
    StepResult.next ⟨pos2 + 6 + len, s.count, s.carry, s.out⟩
  else
    if pos2 < num then
      StepResult.fatal (Fatal.procTerm (-1)) ⟨pos2, s.count, s.carry, s.out⟩
    else
      StepResult.next ⟨pos2, s.count, s.carry, s.out⟩

/-- The descriptor loop `while (p < buf + num)` as a fuel-indexed runner:
`walkerRun buf num fuel s` iterates `walkerStep` while the cursor is
before `num`, returning the final state and the `Fatal` outcome if an
iteration terminated the process.  Every iteration advances the cursor by
at least 2, so `num + 1` fuel always completes the loop. -/
def walkerRun (buf : List Nat) (num : Nat) : Nat → WalkerState → WalkerState × Option Fatal
  | 0, s => (s, none)
  | fuel + 1, s =>
    if s.pos < num then
      match walkerStep buf num s with
      | StepResult.next s2 => walkerRun buf num fuel s2
      | StepResult.fatal e s2 => (s2, some e)
    else (s, none)

/-- The fixed-header fields and descriptor-loop output of one record, as
`main` decodes and prints them (parse_eit.c lines 418..447). -/
structure RecordOut where
  event_id : Nat
  st : s_start_time
  dur : s_duration
  running_status : Nat
  free_CA_mode : Nat
  descriptors_loop_length : Nat
  events : List OutEvent
deriving DecidableEq

/-- The `running_status` extraction of `main` (parse_eit.c line 435):
`p[0] & 0x03`, i.e. the LOW TWO bits of the status byte. -/
def running_status_of (b : Nat) : Nat := b % 4

/-- Decoding of one record (one input file) by `main` (parse_eit.c lines
418..604): the fixed header (`event_id`, start time, duration,
status/loop-length bytes), then the descriptor loop.  `count0` and
`carry0` are the values of the process-wide `shortevent_count` and of
`dump_text`'s static `bytes_left` when the record begins; the result
carries the decoded record, the two updated pieces of process-wide state,
and the `Fatal` outcome if decoding terminated the process.  The C
uninitialized stack values of `st`/`dur` (printed when the header is
short) are modelled as zeros; no theorem evaluates such a record. -/
def processRecord (buf : List Nat) (count0 : Nat) (carry0 : Option (List Nat)) :
    RecordOut × Nat × Option (List Nat) × Option Fatal :=
  let num := buf.length
  let event_id := buf.getD 0 0 * 256 + buf.getD 1 0
  let r1 := parse_start_time (buf.drop 2) ⟨0, 0, 0, ⟨0, 0, 0⟩⟩
  let pos1 := 2 + r1.1
  let r2 := parse_duration (buf.drop pos1) ⟨0, 0, 0⟩
  let pos2 := pos1 + r2.1
  let rs := running_status_of (buf.getD pos2 0)
  let fca := buf.getD pos2 0 / 8 % 2
  let dll := buf.getD pos2 0 / 16 * 16 * 256 + buf.getD (pos2 + 1) 0
  let w := walkerRun buf num (num + 1) ⟨pos2 + 2, count0, carry0, []⟩
  (⟨event_id, r1.2, r2.2, rs, fca, dll, w.1.out⟩, w.1.count, w.1.carry, w.2)

/-- The multi-file loop of `main` (parse_eit.c lines 389..607):
`shortevent_count` and the `dump_text` carryover are process-wide, so
they thread from one file's record to the next without being reset; a
`Fatal` outcome stops the whole run. -/
def runFiles : List (List Nat) → Nat → Option (List Nat) →
    List RecordOut × Nat × Option (List Nat) × Option Fatal
  | [], count, carry => ([], count, carry, none)
  | buf :: rest, count, carry =>
    let r := processRecord buf count carry
    match r.2.2.2 with
    | some e => ([r.1], r.2.1, r.2.2.1, some e)
    | none =>
      let rs := runFiles rest r.2.1 r.2.2.1
      (r.1 :: rs.1, rs.2.1, rs.2.2.1, rs.2.2.2)

/-- A well-formed 19-byte record: event_id 1, the Annex C example start
time, duration 01:45:30, status byte 0, and one short-event descriptor
with language "deu" and empty name/text. -/
def demoRecord : List Nat :=
  [0x00, 0x01,
   0xC0, 0x79, 0x12, 0x45, 0x00,
   0x01, 0x45, 0x30,
   0x00, 0x00,
   0x4D, 0x05, 0x64, 0x65, 0x75, 0x00, 0x00]



/-- `parse_start_time` consumes exactly 5 bytes whenever at least 5 are
available. -/
theorem parse_start_time_consumed (p : List Nat) (s0 : s_start_time) (h : 5 ≤ p.length) :
    (parse_start_time p s0).1 = 5 := by
  unfold parse_start_time
  rw [if_neg (by omega)]

/-- `parse_duration` consumes exactly 3 bytes whenever at least 3 are
available. -/
theorem parse_duration_consumed (p : List Nat) (s : s_duration) (h : 3 ≤ p.length) :
    (parse_duration p s).1 = 3 := by
  unfold parse_duration
  rw [if_neg (by omega)]
  rcases p with _ | ⟨a, _ | ⟨b, _ | ⟨c, r⟩⟩⟩
  · simp at h
  · simp at h
  · simp at h
  · rfl

/-- Claim C2 (code evaluated at the failing input): the UTF-8 text
0xC3 0xA9 (one two-byte character), carried behind the 0x15 selector,
decodes unsplit to itself; split after the first of its two bytes, the
first call stashes 0xC3 as carryover and outputs nothing, and the
continuation call outputs nothing as well — because `dump_text` prepends
the carryover without enlarging `len`, iconv reads back only the carry
byte and never sees the final byte of the second fragment.  The
concatenated split output (empty) differs from the unsplit output. -/
theorem C2_split_decode_mismatch :
    dump_text none [0x15, 0xC3, 0xA9] false = Except.ok ([0xC3, 0xA9], none) ∧
    dump_text none [0x15, 0xC3] false = Except.ok (([] : List Nat), some [0xC3]) ∧
    dump_text (some [0xC3]) [0x15, 0xA9] true = Except.ok (([] : List Nat), some [0xC3]) ∧
    ([] : List Nat) ++ ([] : List Nat) ≠ [0xC3, 0xA9] := by decide

/-- Claim C5, counterexample: a stale carryover (0xC3) is present when a
non-continuation text field begins; `dump_text` decodes the field as if
the carryover did not exist and returns with the carryover cleared — no
error outcome is reported. -/
theorem C5_counterexample :
    dump_text (some [0xC3]) [0x41] false = Except.ok ([0x41], none) := by decide

/-- Claim C5 as amended: a non-empty carryover at a non-continuation call
is silently freed and reset; `dump_text` behaves exactly as if the
carryover had been empty, and no error condition is reported. -/
theorem C5_stale_carry_discarded (carry p : List Nat) :
    dump_text (some carry) p false = dump_text none p false := by
  cases hgc : get_code_table p with
  | error e => simp [dump_text, hgc]
  | ok v => obtain ⟨inc, table⟩ := v; simp [dump_text, hgc]

/-- Witness for `C5_stale_carry_discarded` at carryover 0xC3 and
field "A". -/
theorem C5_stale_carry_discarded_witness :
    dump_text (some [0xC3]) [0x41] false = dump_text none [0x41] false :=
  C5_stale_carry_discarded [0xC3] [0x41]

/-- Claim C6: `parse_start_time` on the Annex C reference example bytes
0xC0 0x79 0x12 0x45 0x00 consumes 5 bytes and yields year 93 (the
two-digit year of 1993 under the standard's 19xx century rule, exactly as
the C code stores it), month 10, day 13, and time of day 12:45:00.  The
struct fields follow the C declaration order `Y`, `D`, `M`, `t`. -/
theorem C6_start_time_example :
    parse_start_time [0xC0, 0x79, 0x12, 0x45, 0x00] ⟨0, 0, 0, ⟨0, 0, 0⟩⟩ =
      (5, ⟨93, 13, 10, ⟨12, 45, 0⟩⟩) := by decide

/-- Claim C7: with at least 3 bytes `parse_duration` consumes 3 bytes and
returns the digit pairs `(b >> 4) * 10 + (b & 0x0F)` of the first three
bytes unvalidated (out-of-range values pass through as-is); with fewer
than 3 bytes it returns 0 consumed and the output struct exactly as it
was (never partially written). -/
theorem C7_parse_duration_spec (p : List Nat) (s : s_duration) :
    (p.length < 3 → parse_duration p s = (0, s)) ∧
    (3 ≤ p.length → parse_duration p s =
      (3, ⟨((p.getD 0 0 / 16) * 10 + p.getD 0 0 % 16 : Nat),
           ((p.getD 1 0 / 16) * 10 + p.getD 1 0 % 16 : Nat),
           ((p.getD 2 0 / 16) * 10 + p.getD 2 0 % 16 : Nat)⟩)) := by
  constructor
  · intro h
    unfold parse_duration
    rw [if_pos h]
  · intro h
    unfold parse_duration
    rw [if_neg (by omega)]
    rcases p with _ | ⟨a, _ | ⟨b, _ | ⟨c, r⟩⟩⟩
    · simp at h
    · simp at h
    · simp at h
    · rfl

/-- Witness for `C7_parse_duration_spec`: a 1-byte input leaves the
struct untouched; the bytes 0x99 0x45 0x30 decode to the out-of-range
hour 99 together with 45 and 30. -/
theorem C7_parse_duration_spec_witness :
    parse_duration [0x99] ⟨7, 7, 7⟩ = (0, ⟨7, 7, 7⟩) ∧
    parse_duration [0x99, 0x45, 0x30] ⟨7, 7, 7⟩ = (3, ⟨99, 45, 30⟩) := by
  refine ⟨(C7_parse_duration_spec [0x99] ⟨7, 7, 7⟩).1 (by decide), ?_⟩
  have h := (C7_parse_duration_spec [0x99, 0x45, 0x30] ⟨7, 7, 7⟩).2 (by decide)
  rw [h]
  decide

/-- On NUL-free input the C escaping loop is the per-character map
`escapeChar` applied independently to every byte. -/
theorem print_JSON_escaped_eq_flatMap (s : List Nat) (hs : ∀ c ∈ s, c ≠ 0) :
    print_JSON_escaped s = s.flatMap escapeChar := by
  induction s with
  | nil => rfl
  | cons c rest ih =>
    have hc : c ≠ 0 := hs c (by simp)
    rw [print_JSON_escaped, if_neg hc, List.flatMap_cons,
      ih (fun x hx => hs x (by simp [hx]))]

/-- Claim C8: on NUL-free input (the escaper receives C strings, which
cannot contain NUL) every byte is emitted unchanged unless it is a
double quote, a backslash or a control character 0x00..0x1F, each of
which becomes the six-byte escape `\u00XX`; and the escaper keeps no
cross-call state: escaping a concatenation is the concatenation of the
two independent escapes. -/
theorem C8_escaper_spec (s t : List Nat) (hs : ∀ c ∈ s, c ≠ 0) (ht : ∀ c ∈ t, c ≠ 0) :
    print_JSON_escaped s = s.flatMap escapeChar ∧
    print_JSON_escaped (s ++ t) = print_JSON_escaped s ++ print_JSON_escaped t ∧
    ∀ c : Nat, escapeChar c =
      if c = 0x22 ∨ c = 0x5C ∨ c ≤ 0x1F then
        [0x5C, 0x75, 0x30, 0x30, hexDigit (c / 16 % 16), hexDigit (c % 16)]
      else [c] := by
  refine ⟨print_JSON_escaped_eq_flatMap s hs, ?_, fun c => rfl⟩
  have hst : ∀ c ∈ s ++ t, c ≠ 0 := by
    intro c hcm
    rcases List.mem_append.1 hcm with h | h
    · exact hs c h
    · exact ht c h
  rw [print_JSON_escaped_eq_flatMap s hs, print_JSON_escaped_eq_flatMap t ht,
    print_JSON_escaped_eq_flatMap (s ++ t) hst, List.flatMap_append]

/-- Witness for `C8_escaper_spec` at the string `"\` (a double quote
followed by a backslash), both characters escaped. -/
theorem C8_escaper_spec_witness :
    print_JSON_escaped ([0x22] ++ [0x5C]) =
      print_JSON_escaped [0x22] ++ print_JSON_escaped [0x5C] :=
  (C8_escaper_spec [0x22] [0x5C] (by decide) (by decide)).2.1

/-- Claim C1, counterexample: on a text field consisting of the single
byte 0x10 (the three-byte character-set selector with fewer than 3 bytes
available) the code terminates the process with status -1 — it does not
return a recoverable error outcome to its caller. -/
theorem C1_counterexample :
    get_code_table [0x10] = Except.error (Fatal.procTerm (-1)) := by decide

/-- Claim C1 as amended: each structural violation terminates the process
with status -1 (the `Fatal.procTerm` outcome of the embedding) instead of
returning an error value to the caller:
1. a 0x10 character-set selector with fewer than 3 bytes available;
2. a nonzero items-length byte in an extended event descriptor;
3. a genuinely invalid byte sequence during text conversion (EILSEQ),
   stated for the non-continuation call shape `dump_text st p false`;
4. an unknown descriptor tag with bytes remaining past its 2-byte
   header. -/
theorem C1_fatal_terminations :
    (∀ p : List Nat, 1 ≤ p.length → p.getD 0 0 = 0x10 → p.length < 3 →
      get_code_table p = Except.error (Fatal.procTerm (-1))) ∧
    (∀ (buf : List Nat) (num : Nat) (s : WalkerState),
      buf.getD s.pos 0 = 0x4E → 0 < buf.getD (s.pos + 6) 0 →
      ∃ s', walkerStep buf num s = StepResult.fatal (Fatal.procTerm (-1)) s') ∧
    (∀ (st : Option (List Nat)) (p : List Nat) (inc : Nat) (table : String),
      get_code_table p = Except.ok (inc, table) →
      (iconvConv table (p.drop inc)).stop = IconvStop.eilseq →
      (iconvConv table (p.drop inc)).out.length < 2048 →
      dump_text st p false = Except.error (Fatal.procTerm (-1))) ∧
    (∀ (buf : List Nat) (num : Nat) (s : WalkerState),
      ¬buf.getD s.pos 0 = 0x4D → ¬buf.getD s.pos 0 = 0x4E → ¬buf.getD s.pos 0 = 0x50 →
      s.pos + 2 < num →
      walkerStep buf num s =
        StepResult.fatal (Fatal.procTerm (-1)) ⟨s.pos + 2, s.count, s.carry, s.out⟩) := by
  refine ⟨?_, ?_, ?_, ?_⟩
  · intro p h1 h2 h3
    simp only [get_code_table, h2]
    rw [if_pos h1, if_pos (by norm_num), if_pos trivial, if_neg (by omega)]
  · intro buf num s h1 h2
    have e6 : s.pos + 2 + 1 + 3 = s.pos + 6 := by omega
    simp only [walkerStep, h1, e6]
    rw [if_neg (by norm_num), if_pos trivial, if_pos h2]
    exact ⟨_, rfl⟩
  · intro st p inc table h1 h2 h3
    cases st with
    | none =>
      simp only [dump_text, h1]
      rw [if_neg (by omega), h2]
    | some carry =>
      simp only [dump_text, h1]
      rw [if_neg (by omega), h2]
  · intro buf num s h1 h2 h3 h4
    simp only [walkerStep]
    rw [if_neg h1, if_neg h2, if_neg h3, if_pos h4]

/-- Witness for `C1_fatal_terminations`: each of the four structural
violations evaluated at a concrete input. -/
theorem C1_fatal_terminations_witness :
    get_code_table [0x10] = Except.error (Fatal.procTerm (-1)) ∧
    (∃ s', walkerStep [0x4E, 0, 0, 0, 0, 0, 1, 0] 8 ⟨0, 0, none, []⟩ =
      StepResult.fatal (Fatal.procTerm (-1)) s') ∧
    dump_text none [0x15, 0x80] false = Except.error (Fatal.procTerm (-1)) ∧
    walkerStep [0, 0, 0] 3 ⟨0, 0, none, []⟩ =
      StepResult.fatal (Fatal.procTerm (-1)) ⟨0 + 2, 0, none, []⟩ :=
  ⟨C1_fatal_terminations.1 [0x10] (by decide) (by decide) (by decide),
   C1_fatal_terminations.2.1 [0x4E, 0, 0, 0, 0, 0, 1, 0] 8 ⟨0, 0, none, []⟩
     (by decide) (by decide),
   C1_fatal_terminations.2.2.1 none [0x15, 0x80] 1 "ISO-10646/UTF8"
     (by decide) (by decide) (by decide),
   C1_fatal_terminations.2.2.2 [0, 0, 0] 3 ⟨0, 0, none, []⟩
     (by decide) (by decide) (by decide) (by decide)⟩

/-- Claim C3 as amended: every non-fatal iteration of the descriptor loop
advances the cursor by at least the 2 header bytes, and only for the
Component descriptor (with `descriptor_length ≥ 6`) does it advance by
exactly `2 + descriptor_length`; Short/Extended event branches advance
field by field, which can fall short of the declared length. -/
theorem C3_advance (buf : List Nat) (num : Nat) (s s' : WalkerState)
    (h : walkerStep buf num s = StepResult.next s') :
    s.pos + 2 ≤ s'.pos ∧
    (buf.getD s.pos 0 = 0x50 → 6 ≤ buf.getD (s.pos + 1) 0 →
      buf.getD (s.pos + 1) 0 < 256 → s'.pos = s.pos + 2 + buf.getD (s.pos + 1) 0) := by
  simp only [walkerStep] at h
  repeat' split at h
  all_goals first
    | exact StepResult.noConfusion h
    | (injection h with h2; subst h2)
  all_goals refine ⟨?_, fun h50 hge hlt => ?_⟩
  all_goals dsimp only
  all_goals omega

/-- Claim C3, counterexample: a short-event descriptor declaring length
200 but containing empty name and text advances the cursor by only 7
bytes (2 header + 3 language + 1 + 0 + 1 + 0), far less than the
2 + 200 bytes the claim requires. -/
theorem C3_counterexample :
    walkerStep [0x4D, 200, 0, 0, 0, 0, 0] 7 ⟨0, 0, none, []⟩ =
      StepResult.next ⟨7, 1, none, [OutEvent.shortEvent 1 [0, 0, 0] [] []]⟩ ∧
    7 < 2 + 200 := by decide

/-- Witness for `C3_advance`: a component descriptor of declared length 6
advances the cursor from 0 to exactly 8 = 2 + 6. -/
theorem C3_advance_witness :
    (⟨0, 0, none, []⟩ : WalkerState).pos + 2 ≤ (⟨8, 0, none, []⟩ : WalkerState).pos ∧
    (⟨8, 0, none, []⟩ : WalkerState).pos =
      (⟨0, 0, none, []⟩ : WalkerState).pos + 2 +
        [0x50, 0x06, 0, 0, 0, 0, 0, 0].getD ((⟨0, 0, none, []⟩ : WalkerState).pos + 1) 0 := by
  have h := C3_advance [0x50, 0x06, 0, 0, 0, 0, 0, 0] 8 ⟨0, 0, none, []⟩ ⟨8, 0, none, []⟩
    (by decide)
  exact ⟨h.1, h.2 (by decide) (by decide) (by decide)⟩

/-- Claim C4 as amended: in a non-fatal extended-event iteration the
3 language-code bytes are PRINTED if and only if `descriptor_number == 0`
(the `extendedOpen` output event carrying the bytes at offsets 3..5), but
they are CONSUMED unconditionally: the items byte is read at offset 6,
the text length at offset 7, and the cursor advances to
`pos + 8 + text_length` for first fragments and continuations alike. -/
theorem C4_extended_event (buf : List Nat) (num : Nat) (s s' : WalkerState)
    (h4E : buf.getD s.pos 0 = 0x4E)
    (h : walkerStep buf num s = StepResult.next s') :
    s'.pos = s.pos + 8 + buf.getD (s.pos + 7) 0 ∧
    (∃ t, s'.out = s.out ++
      (if buf.getD (s.pos + 2) 0 / 16 = 0 then
        [OutEvent.extendedOpen
          [buf.getD (s.pos + 3) 0, buf.getD (s.pos + 4) 0, buf.getD (s.pos + 5) 0]]
      else []) ++
      [OutEvent.extendedText t] ++
      (if buf.getD (s.pos + 2) 0 / 16 = buf.getD (s.pos + 2) 0 % 16 then
        [OutEvent.extendedClose]
      else [])) := by
  have e3 : s.pos + 2 + 1 = s.pos + 3 := by omega
  have e4 : s.pos + 2 + 1 + 1 = s.pos + 4 := by omega
  have e5 : s.pos + 2 + 1 + 2 = s.pos + 5 := by omega
  have e7 : s.pos + 2 + 1 + 3 + 1 = s.pos + 7 := by omega
  have e8 : s.pos + 2 + 1 + 3 + 1 + 1 = s.pos + 8 := by omega
  simp only [walkerStep, h4E, e3, e4, e5, e7, e8] at h
  rw [if_neg (by norm_num), if_pos trivial] at h
  repeat' split at h
  all_goals first
    | exact StepResult.noConfusion h
    | (injection h with h2; subst h2)
  all_goals rename_i tOut cr heq hopen hclose
  all_goals refine ⟨by dsimp only; try omega, ⟨tOut, ?_⟩⟩
  all_goals dsimp only
  all_goals first
    | rw [if_pos hopen, if_pos hclose]
    | rw [if_pos hopen, if_neg hclose]
    | rw [if_neg hopen, if_pos hclose]
    | rw [if_neg hopen, if_neg hclose]

/-- Claim C4, counterexample: an extended-event fragment with
`descriptor_number = 1` (byte 0x11 at offset 2).  The 3 bytes at offsets
3..5 are skipped as the language code even though the claim says no bytes
are consumed for it: the walker reads the items byte at offset 6 (0x00,
so no fatal outcome — had the language bytes not been consumed it would
have read 0x05 there and terminated), reads the text length at offset 7
and finishes at cursor 8, not at the 5 the claim implies. -/
theorem C4_counterexample :
    walkerStep [0x4E, 4, 0x11, 0x05, 0xBB, 0xCC, 0x00, 0x00] 8 ⟨0, 0, none, []⟩ =
      StepResult.next ⟨8, 0, none, [OutEvent.extendedText [], OutEvent.extendedClose]⟩ ∧
    (8 : Nat) ≠ 2 + 1 + 1 + 1 + 0 := by decide

/-- Witness for `C4_extended_event`: a first-fragment extended event
(descriptor_number 0) with language "ABC" and one-byte text "D". -/
theorem C4_extended_event_witness :
    (⟨9, 0, none, [OutEvent.extendedOpen [0x41, 0x42, 0x43], OutEvent.extendedText [0x44],
        OutEvent.extendedClose]⟩ : WalkerState).pos =
      (⟨0, 0, none, []⟩ : WalkerState).pos + 8 +
        [0x4E, 6, 0x00, 0x41, 0x42, 0x43, 0x00, 0x01, 0x44].getD
          ((⟨0, 0, none, []⟩ : WalkerState).pos + 7) 0 :=
  (C4_extended_event [0x4E, 6, 0x00, 0x41, 0x42, 0x43, 0x00, 0x01, 0x44] 9
    ⟨0, 0, none, []⟩
    ⟨9, 0, none, [OutEvent.extendedOpen [0x41, 0x42, 0x43], OutEvent.extendedText [0x44],
      OutEvent.extendedClose]⟩
    (by decide) (by decide)).1

/-- Claim C9 (code evaluated): `main` computes `running_status` as
`p[0] & 0x03`, a TWO-bit mask, so the decoded `running_status` of every
record is below 4 and the four values 4..7 of the claimed 3-bit
enumeration (`running`, `service_off_air` and the two reserved values)
can never occur; the second conjunct ties the record field to that
extraction for every record with a complete 12-byte fixed header. -/
theorem C9_running_status_two_bits :
    (∀ b : Nat, running_status_of b < 4) ∧
    (∀ (buf : List Nat) (count0 : Nat) (carry0 : Option (List Nat)), 12 ≤ buf.length →
      (processRecord buf count0 carry0).1.running_status =
        running_status_of (buf.getD 10 0)) := by
  constructor
  · intro b
    exact Nat.mod_lt b (by norm_num)
  · intro buf count0 carry0 h
    have h1 : (parse_start_time (buf.drop 2) ⟨0, 0, 0, ⟨0, 0, 0⟩⟩).1 = 5 :=
      parse_start_time_consumed _ _ (by simp; omega)
    have h2 : (parse_duration (buf.drop 7) ⟨0, 0, 0⟩).1 = 3 :=
      parse_duration_consumed _ _ (by simp; omega)
    simp only [processRecord, h1, h2]

/-- Witness for `C9_running_status_two_bits`: the byte 0x80 (whose top
three bits encode `running` = 4) decodes below 4, and the demo record's
field equals the line-435 extraction of its byte 10. -/
theorem C9_running_status_two_bits_witness :
    running_status_of 0x80 < 4 ∧
    (processRecord demoRecord 0 none).1.running_status =
      running_status_of (demoRecord.getD 10 0) :=
  ⟨C9_running_status_two_bits.1 0x80,
   C9_running_status_two_bits.2 demoRecord 0 none (by decide)⟩

/-- Claim C10: `shortevent_count` is bumped by exactly 1 when and only
when an iteration decodes a short-event descriptor (first conjunct, for
every non-fatal iteration), and the counter threads through `runFiles`
without a reset between records: decoding the same one-short-event record
twice in one run numbers the short events 1 and then 2, with the final
counter at 2. -/
theorem C10_shortevent_counter :
    (∀ (buf : List Nat) (num : Nat) (s s' : WalkerState),
      walkerStep buf num s = StepResult.next s' →
      s'.count = if buf.getD s.pos 0 = 0x4D then s.count + 1 else s.count) ∧
    (runFiles [demoRecord, demoRecord] 0 none).1.map RecordOut.events =
      [[OutEvent.shortEvent 1 [0x64, 0x65, 0x75] [] []],
       [OutEvent.shortEvent 2 [0x64, 0x65, 0x75] [] []]] ∧
    (runFiles [demoRecord, demoRecord] 0 none).2.1 = 2 := by
  refine ⟨?_, by decide, by decide⟩
  intro buf num s s' h
  simp only [walkerStep] at h
  repeat' split at h
  all_goals first
    | exact StepResult.noConfusion h
    | (injection h with h2; subst h2)
  all_goals dsimp only
  all_goals first
    | rw [if_pos (by assumption)]
    | rw [if_neg (by assumption)]

/-- Witness for `C10_shortevent_counter`: the short-event step of the
demo record takes the counter from 0 to 1. -/
theorem C10_shortevent_counter_witness :
    (⟨19, 1, none, [OutEvent.shortEvent 1 [0x64, 0x65, 0x75] [] []]⟩ : WalkerState).count =
      if demoRecord.getD 12 0 = 0x4D then (⟨12, 0, none, []⟩ : WalkerState).count + 1
      else (⟨12, 0, none, []⟩ : WalkerState).count :=
  C10_shortevent_counter.1 demoRecord 19 ⟨12, 0, none, []⟩
    ⟨19, 1, none, [OutEvent.shortEvent 1 [0x64, 0x65, 0x75] [] []]⟩ (by decide)

end ParseEIT
